import Mathlib

/-!
Verification of the forex scanner (src/forex_scanner.py) against its design
specification. The embedding is shallow: HTTP responses are modelled as an
explicit `FetchOutcome` argument, Python numeric (float) values are modelled
as rationals, and the Python dict used for the result mapping is modelled as
an association list with Python's insertion/overwrite semantics.
-/

set_option autoImplicit false
set_option linter.unusedVariables false

namespace ForexSpec

/-- One successful fetch result, mirroring the dictionary returned by
`ForexScanner.get_exchange_rate` (keys `from`, `from_name`, `to`, `to_name`,
`rate`, `last_refreshed`, `timezone`, `bid`, `ask`; `from`/`to` are rendered
here as `fromCode`/`toCode` since `from` is reserved). -/
structure RateRecord where
  fromCode : String
  from_name : String
  toCode : String
  to_name : String
  rate : ℚ
  last_refreshed : String
  timezone : String
  bid : ℚ
  ask : ℚ
deriving DecidableEq

/-- The parsed `Realtime Currency Exchange Rate` JSON object. A `String`
field is `none` when its key is absent from the object (Python `KeyError`);
a numeric field is `none` when its key is absent or when `float()` on the
raw value would raise `ValueError`, and otherwise carries the parsed numeric
value. Field order mirrors the numbered keys `1. From_Currency Code` through
`9. Ask Price`. -/
structure RawQuote where
  fromCurrencyCode : Option String
  fromCurrencyName : Option String
  toCurrencyCode : Option String
  toCurrencyName : Option String
  exchangeRate : Option ℚ
  lastRefreshedField : Option String
  timeZoneField : Option String
  bidPrice : Option ℚ
  askPrice : Option ℚ
deriving DecidableEq

/-- A decoded JSON response body: the three top-level keys the code probes,
in source order: `Error Message`, `Note`, `Realtime Currency Exchange Rate`.
Each component is `none` exactly when the key is absent. -/
structure ApiResponse where
  errorMessage : Option String
  note : Option String
  realtimeRate : Option RawQuote
deriving DecidableEq

/-- Outcome of the HTTP GET issued by `get_exchange_rate`:
a network-level failure (timeout, connection error, non-2xx status — any
`requests.exceptions.RequestException`), a JSON decode failure of the body,
or a decoded JSON body. -/
inductive FetchOutcome where
  | networkFailure
  | decodeError
  | jsonBody (body : ApiResponse)
deriving DecidableEq

/-- Scanner state: `__init__` stores the API key and an empty cache dict. -/
structure ForexScanner where
  api_key : String
  cache : List (String × RateRecord)
deriving DecidableEq

/-- `ForexScanner.__init__`: stores the key, initialises `cache = {}`. -/
def ForexScanner.init (api_key : String) : ForexScanner :=
  { api_key := api_key, cache := [] }

/-- The query parameters built at the top of `get_exchange_rate`: the fixed
function name, both currency codes normalised with `.upper()`, and the API
key. -/
def requestParams (s : ForexScanner) (from_currency to_currency : String) :
    List (String × String) :=
  [("function", "CURRENCY_EXCHANGE_RATE"),
   ("from_currency", from_currency.toUpper),
   ("to_currency", to_currency.toUpper),
   ("apikey", s.api_key)]

/-- `ForexScanner.get_exchange_rate`, as a function of the HTTP outcome.
Classification follows the source order: network error → `None`; body with
`Error Message` → `None`; body with `Note` → `None`; body without
`Realtime Currency Exchange Rate` → `None`; then the nine sub-fields are
extracted (any `KeyError`/`ValueError` is caught and yields `None`) and a
record is returned. The currency-code arguments only enter the outgoing
request (`requestParams`), not the returned record. -/
def get_exchange_rate (s : ForexScanner) (from_currency to_currency : String)
    (resp : FetchOutcome) : Option RateRecord :=
  match resp with
  | .networkFailure => none
  | .decodeError => none
  | .jsonBody data =>
    if data.errorMessage.isSome then none
    else if data.note.isSome then none
    else
      match data.realtimeRate with
      | none => none
      | some rd =>
        match rd.fromCurrencyCode, rd.fromCurrencyName, rd.toCurrencyCode,
              rd.toCurrencyName, rd.exchangeRate, rd.lastRefreshedField,
              rd.timeZoneField, rd.bidPrice, rd.askPrice with
        | some fc, some fn, some tc, some tn, some r, some lr, some tz,
          some b, some a =>
            some { fromCode := fc, from_name := fn, toCode := tc,
                   to_name := tn, rate := r, last_refreshed := lr,
                   timezone := tz, bid := b, ask := a }
        | _, _, _, _, _, _, _, _, _ => none

/-- First value stored under key `k` in an association list (Python dict
lookup). -/
def lookupKey {α : Type} (d : List (String × α)) (k : String) : Option α :=
  match d with
  | [] => none
  | p :: rest => if p.1 = k then some p.2 else lookupKey rest k

/-- Python dict assignment `d[k] = v`: if the key is present its value is
updated in place (position preserved), otherwise the pair is appended. -/
def dictInsert {α : Type} (d : List (String × α)) (k : String) (v : α) :
    List (String × α) :=
  match d with
  | [] => [(k, v)]
  | p :: rest => if p.1 = k then (k, v) :: rest else p :: dictInsert rest k v

/-- The keys of an association list, in order. -/
def keysOf {α : Type} (d : List (String × α)) : List String :=
  d.map Prod.fst

/-- Observable effects of the scan loop: one fetch per pair (the outbound
HTTP call of `get_exchange_rate`) and the `time.sleep(delay)` calls. -/
inductive Event where
  | fetchEvent (from_curr to_curr : String)
  | sleepEvent (delay : ℚ)
deriving DecidableEq

/-- The loop body of `ForexScanner.scan_pairs`: `idx` is the 1-based index
from `enumerate(currency_pairs, 1)`, `total` is `len(currency_pairs)`.
The HTTP outcome of the i-th call (0-based) is `responses i`, so the pair at
1-based index `idx` sees `responses (idx - 1)`. On a successful fetch the
record is inserted under `f"{from_curr}/{to_curr}"`; on failure the pair is
skipped. After every pair except the last (`idx < total`) the loop sleeps.
Returns the accumulated results together with the event trace. -/
def scanGo (s : ForexScanner) (responses : ℕ → FetchOutcome) (total : ℕ)
    (delay : ℚ) :
    ℕ → List (String × String) → List (String × RateRecord) →
      List (String × RateRecord) × List Event
  | _, [], results => (results, [])
  | idx, (from_curr, to_curr) :: rest, results =>
    let pair_name := from_curr ++ "/" ++ to_curr
    let rate_data := get_exchange_rate s from_curr to_curr (responses (idx - 1))
    let results' := match rate_data with
      | some rd => dictInsert results pair_name rd
      | none => results
    let tail := scanGo s responses total delay (idx + 1) rest results'
    (tail.1,
     Event.fetchEvent from_curr to_curr ::
       ((if idx < total then [Event.sleepEvent delay] else []) ++ tail.2))

/-- `ForexScanner.scan_pairs`: iterates the pairs starting from an empty
result dict and 1-based index 1. -/
def scan_pairs (s : ForexScanner) (responses : ℕ → FetchOutcome)
    (currency_pairs : List (String × String)) (delay : ℚ) :
    List (String × RateRecord) × List Event :=
  scanGo s responses currency_pairs.length delay 1 currency_pairs []

/-- Specification helper (not code): the record produced by the last
successful fetch among the pairs of `rest` (starting at 1-based index `idx`)
whose display key `f"{from}/{to}"` equals `k`; `none` if every fetch of that
key failed or the key never occurs. -/
def lastSuccessAux (s : ForexScanner) (responses : ℕ → FetchOutcome) :
    ℕ → List (String × String) → String → Option RateRecord
  | _, [], _ => none
  | idx, (f, t) :: rest, k =>
    match lastSuccessAux s responses (idx + 1) rest k with
    | some v => some v
    | none =>
      if f ++ "/" ++ t = k then get_exchange_rate s f t (responses (idx - 1))
      else none

/-- Specification helper: the last successful fetch for key `k` over the
whole pair list. -/
def lastSuccessFor (s : ForexScanner) (responses : ℕ → FetchOutcome)
    (currency_pairs : List (String × String)) (k : String) :
    Option RateRecord :=
  lastSuccessAux s responses 1 currency_pairs k

/-- Left-pad a digit string with zeros to length `width`
(for the fractional part of fixed-point formatting). -/
def zeroPad (str : String) (width : ℕ) : String :=
  String.mk (List.replicate (width - str.length) '0') ++ str

/-- Fixed-point decimal rendering of a rational with `prec` fractional
digits, modelling Python's `f"{x:.{prec}f}"` on the real value (the
binary-float rounding artifacts of CPython's formatting are not modelled;
ties round half up here). -/
def formatFixed (prec : ℕ) (q : ℚ) : String :=
  let n : ℤ := ⌊q * (10 : ℚ) ^ prec + 1 / 2⌋
  let sign := if n < 0 then "-" else ""
  let m := n.natAbs
  sign ++ toString (m / 10 ^ prec) ++ "." ++ zeroPad (toString (m % 10 ^ prec)) prec

/-- Python `f"{s:<width}"`: pad on the right with spaces to at least
`width` characters. -/
def padRight (str : String) (width : ℕ) : String :=
  str ++ String.mk (List.replicate (width - str.length) ' ')

/-- The `'='*70` separator line. -/
def sepLine : String := String.mk (List.replicate 70 '=')

/-- The `'-'*70` divider line. -/
def dashLine : String := String.mk (List.replicate 70 '-')

/-- The notice printed by `display_results` when the mapping is empty. -/
def noResultsNotice : String := "\n❌ No results to display\n"

/-- The fixed column-header line of the results table. -/
def columnHeader : String :=
  padRight "PAIR" 15 ++ " " ++ padRight "RATE" 12 ++ " " ++
    padRight "BID" 12 ++ " " ++ padRight "ASK" 12 ++ " " ++
    padRight "UPDATED" 20

/-- One data row of the results table: pair name, rate, bid and ask to five
decimal places, and the last-refreshed stamp, each left-aligned. -/
def displayRow (pair_name : String) (data : RateRecord) : String :=
  padRight pair_name 15 ++ " " ++ padRight (formatFixed 5 data.rate) 12 ++ " " ++
    padRight (formatFixed 5 data.bid) 12 ++ " " ++
    padRight (formatFixed 5 data.ask) 12 ++ " " ++
    padRight data.last_refreshed 20 ++ "\n"

/-- Everything `display_results` prints before the clock value, in the
non-empty case: the blank line, the `=` banner, and the results title up to
the embedded `datetime.now().strftime('%Y-%m-%d %H:%M:%S')`. -/
def displayHeaderPre : String :=
  "\n" ++ sepLine ++ "\n" ++ "📊 FOREX SCANNER RESULTS - "

/-- Everything `display_results` prints after the clock value: the closing
banner, blank line, column header, divider, the data rows in mapping order,
and the final banner. -/
def displayTable (results : List (String × RateRecord)) : String :=
  "\n" ++ sepLine ++ "\n\n" ++ columnHeader ++ "\n" ++ dashLine ++ "\n" ++
    String.join (results.map (fun p => displayRow p.1 p.2)) ++
    sepLine ++ "\n\n"

/-- `ForexScanner.display_results`, as the text it prints. The source embeds
`datetime.now()` in the title line, so the text is a function of the result
mapping and of the clock reading `now` (the pre-formatted
`%Y-%m-%d %H:%M:%S` string). Empty mapping: only the notice is printed. -/
def display_results (results : List (String × RateRecord)) (now : String) :
    String :=
  if results.isEmpty then noResultsNotice
  else displayHeaderPre ++ now ++ displayTable results

/-- The dict comprehension at the top of `calculate_arbitrage`:
`{pair: data['rate'] for pair, data in results.items()}`. -/
def pairsDictOf (results : List (String × RateRecord)) : List (String × ℚ) :=
  results.foldl (fun d p => dictInsert d p.1 p.2.rate) []

/-- The nested loop of `calculate_arbitrage`: for every ordered pair of
entries with distinct keys, the spread `abs(rate1 * rate2 - 1.0)` is
computed and the triple appended when it exceeds the `0.01` threshold
(outer-then-inner discovery order). -/
def opportunitiesOf (pairs_dict : List (String × ℚ)) :
    List (String × String × ℚ) :=
  pairs_dict.flatMap (fun p1 =>
    pairs_dict.filterMap (fun p2 =>
      if p1.1 ≠ p2.1 then
        if |p1.2 * p2.2 - 1| > 1 / 100 then some (p1.1, p2.1, |p1.2 * p2.2 - 1|)
        else none
      else none))

/-- `ForexScanner.calculate_arbitrage`, as the list of findings it reports:
the collected opportunities truncated to the first five
(`opportunities[:5]`). -/
def calculate_arbitrage (results : List (String × RateRecord)) :
    List (String × String × ℚ) :=
  (opportunitiesOf (pairsDictOf results)).take 5

/-- The pair of currency codes carried by a fetch event, if any. -/
def fetchArgsOf : Event → Option (String × String)
  | .fetchEvent f t => some (f, t)
  | .sleepEvent _ => none

/-- Whether an event is a fetch. -/
def isFetchB (e : Event) : Bool := (fetchArgsOf e).isSome

/-- Whether an event is a sleep. -/
def isSleepB : Event → Bool
  | .sleepEvent _ => true
  | .fetchEvent _ _ => false

theorem keysOf_nil {α : Type} : keysOf ([] : List (String × α)) = [] := rfl

theorem keysOf_cons {α : Type} (p : String × α) (rest : List (String × α)) :
    keysOf (p :: rest) = p.1 :: keysOf rest := rfl

theorem lookupKey_dictInsert {α : Type} (d : List (String × α)) (k k' : String)
    (v : α) :
    lookupKey (dictInsert d k v) k' = if k' = k then some v else lookupKey d k' := by
  induction d with
  | nil =>
    by_cases h : k' = k
    · subst h; simp [dictInsert, lookupKey]
    · simp [dictInsert, lookupKey, h, Ne.symm h]
  | cons p rest ih =>
    by_cases hp : p.1 = k
    · by_cases h : k' = k
      · subst h
        simp [dictInsert, lookupKey, hp]
      · simp [dictInsert, lookupKey, hp, h, Ne.symm h]
    · by_cases h : k' = k
      · subst h
        simp [dictInsert, lookupKey, hp, ih]
      · simp [dictInsert, lookupKey, hp, ih, h]

theorem mem_keysOf_dictInsert {α : Type} (d : List (String × α))
    (k x : String) (v : α) :
    x ∈ keysOf (dictInsert d k v) ↔ x ∈ keysOf d ∨ x = k := by
  induction d with
  | nil => simp [dictInsert, keysOf]
  | cons p rest ih =>
    obtain ⟨a, b⟩ := p
    by_cases hp : a = k
    · subst hp
      simp [dictInsert, keysOf_cons]
      tauto
    · simp only [dictInsert, if_neg hp, keysOf_cons, List.mem_cons]
      rw [ih]
      tauto

theorem nodup_keysOf_dictInsert {α : Type} (d : List (String × α))
    (k : String) (v : α) (h : (keysOf d).Nodup) :
    (keysOf (dictInsert d k v)).Nodup := by
  induction d with
  | nil => simp [dictInsert, keysOf]
  | cons p rest ih =>
    obtain ⟨a, b⟩ := p
    rw [keysOf_cons, List.nodup_cons] at h
    obtain ⟨hnotin, hrest⟩ := h
    by_cases hp : a = k
    · subst hp
      have hkeys : keysOf (dictInsert ((a, b) :: rest) a v) = a :: keysOf rest := by
        simp [dictInsert, keysOf_cons]
      rw [hkeys, List.nodup_cons]
      exact ⟨hnotin, hrest⟩
    · simp only [dictInsert, if_neg hp, keysOf_cons, List.nodup_cons]
      refine ⟨fun hmem => ?_, ih hrest⟩
      rcases (mem_keysOf_dictInsert rest k a v).mp hmem with hm | he
      · exact hnotin hm
      · exact hp he

theorem scanGo_fst_lookupKey (s : ForexScanner) (responses : ℕ → FetchOutcome)
    (total : ℕ) (delay : ℚ) :
    ∀ (rest : List (String × String)) (idx : ℕ)
      (acc : List (String × RateRecord)) (k : String),
      lookupKey (scanGo s responses total delay idx rest acc).1 k =
        (lastSuccessAux s responses idx rest k).or (lookupKey acc k) := by
  intro rest
  induction rest with
  | nil => intro idx acc k; simp [scanGo, lastSuccessAux, Option.or]
  | cons p rs ih =>
    intro idx acc k
    obtain ⟨f, t⟩ := p
    rw [scanGo]
    simp only [lastSuccessAux]
    rw [ih]
    cases hlast : lastSuccessAux s responses (idx + 1) rs k with
    | some v => rfl
    | none =>
      cases hfetch : get_exchange_rate s f t (responses (idx - 1)) with
      | some rd =>
        rw [lookupKey_dictInsert]
        by_cases hk : f ++ "/" ++ t = k
        · subst hk
          simp [hfetch]
        · simp [hk, hfetch, Ne.symm hk]
      | none =>
        by_cases hk : f ++ "/" ++ t = k <;> simp [hk, hfetch]

theorem scanGo_fst_nodup (s : ForexScanner) (responses : ℕ → FetchOutcome)
    (total : ℕ) (delay : ℚ) :
    ∀ (rest : List (String × String)) (idx : ℕ)
      (acc : List (String × RateRecord)),
      (keysOf acc).Nodup → (keysOf (scanGo s responses total delay idx rest acc).1).Nodup := by
  intro rest
  induction rest with
  | nil => intro idx acc h; simpa [scanGo] using h
  | cons p rs ih =>
    intro idx acc h
    obtain ⟨f, t⟩ := p
    rw [scanGo]
    cases hfetch : get_exchange_rate s f t (responses (idx - 1)) with
    | some rd => exact ih _ _ (nodup_keysOf_dictInsert acc _ rd h)
    | none => exact ih _ _ h

theorem lastSuccessAux_isSome (s : ForexScanner) (responses : ℕ → FetchOutcome) :
    ∀ (rest : List (String × String)) (idx : ℕ) (k : String),
      (lastSuccessAux s responses idx rest k).isSome = true →
      ∃ j, ∃ hj : j < rest.length,
        (rest.get ⟨j, hj⟩).1 ++ "/" ++ (rest.get ⟨j, hj⟩).2 = k ∧
        (get_exchange_rate s (rest.get ⟨j, hj⟩).1 (rest.get ⟨j, hj⟩).2
          (responses (idx + j - 1))).isSome = true := by
  intro rest
  induction rest with
  | nil => intro idx k h; simp [lastSuccessAux] at h
  | cons p rs ih =>
    intro idx k h
    obtain ⟨f, t⟩ := p
    rw [lastSuccessAux] at h
    cases hlast : lastSuccessAux s responses (idx + 1) rs k with
    | some v =>
      obtain ⟨j, hj, hkey, hsucc⟩ := ih (idx + 1) k (by simp [hlast])
      refine ⟨j + 1, by simpa using Nat.succ_lt_succ hj, ?_, ?_⟩
      · simpa using hkey
      · have harith : idx + 1 + j - 1 = idx + (j + 1) - 1 := by omega
        simpa [harith] using hsucc
    | none =>
      rw [hlast] at h
      by_cases hk : f ++ "/" ++ t = k
      · rw [if_pos hk] at h
        exact ⟨0, by simp, by simpa using hk, by simpa using h⟩
      · rw [if_neg hk] at h
        simp at h

theorem scanGo_snd_trace (s : ForexScanner) (responses : ℕ → FetchOutcome)
    (total : ℕ) (delay : ℚ) :
    ∀ (rest : List (String × String)) (idx : ℕ)
      (acc : List (String × RateRecord)),
      idx + rest.length = total + 1 →
      (scanGo s responses total delay idx rest acc).2 =
        List.intersperse (Event.sleepEvent delay)
          (rest.map fun p => Event.fetchEvent p.1 p.2) := by
  intro rest
  induction rest with
  | nil => intro idx acc h; simp [scanGo]
  | cons p rs ih =>
    intro idx acc h
    obtain ⟨f, t⟩ := p
    rw [scanGo]
    cases rs with
    | nil =>
      have hidx : idx = total := by simpa using h
      simp [hidx, scanGo]
    | cons q rs' =>
      have hlt : idx < total := by simp at h; omega
      have h' : idx + 1 + (q :: rs').length = total + 1 := by
        simp at h ⊢; omega
      rw [ih (idx + 1) _ h']
      simp [hlt, List.intersperse_cons_cons]

theorem countP_isFetchB_intersperse (delay : ℚ) :
    ∀ l : List (String × String),
      List.countP isFetchB
        (List.intersperse (Event.sleepEvent delay)
          (l.map fun p => Event.fetchEvent p.1 p.2)) = l.length := by
  intro l
  induction l with
  | nil => simp
  | cons a t ih =>
    cases t with
    | nil => simp [List.countP_cons, isFetchB, fetchArgsOf]
    | cons b t' =>
      simp only [List.map_cons] at ih ⊢
      rw [List.intersperse_cons_cons]
      simp [List.countP_cons, isFetchB, fetchArgsOf, ih]

theorem countP_isSleepB_intersperse (delay : ℚ) :
    ∀ l : List (String × String),
      List.countP isSleepB
        (List.intersperse (Event.sleepEvent delay)
          (l.map fun p => Event.fetchEvent p.1 p.2)) = l.length - 1 := by
  intro l
  induction l with
  | nil => simp
  | cons a t ih =>
    cases t with
    | nil => simp [List.countP_cons, isSleepB]
    | cons b t' =>
      simp only [List.map_cons] at ih ⊢
      rw [List.intersperse_cons_cons]
      simp [List.countP_cons, isSleepB, ih]

theorem filterMap_fetchArgsOf_intersperse (delay : ℚ) :
    ∀ l : List (String × String),
      (List.intersperse (Event.sleepEvent delay)
        (l.map fun p => Event.fetchEvent p.1 p.2)).filterMap fetchArgsOf = l := by
  intro l
  induction l with
  | nil => simp
  | cons a t ih =>
    cases t with
    | nil => simp [fetchArgsOf]
    | cons b t' =>
      simp only [List.map_cons] at ih ⊢
      rw [List.intersperse_cons_cons]
      simp [List.filterMap_cons, fetchArgsOf, ih]

theorem mem_opportunitiesOf (pd : List (String × ℚ)) (p1 p2 : String) (sp : ℚ) :
    (p1, p2, sp) ∈ opportunitiesOf pd ↔
      ∃ r1 r2, (p1, r1) ∈ pd ∧ (p2, r2) ∈ pd ∧ p1 ≠ p2 ∧
        sp = |r1 * r2 - 1| ∧ 1 / 100 < |r1 * r2 - 1| := by
  simp only [opportunitiesOf, List.mem_flatMap, List.mem_filterMap]
  constructor
  · rintro ⟨⟨a1, r1⟩, h1, ⟨a2, r2⟩, h2, hsome⟩
    simp only at hsome
    split_ifs at hsome with hne hth
    · simp only [Option.some.injEq, Prod.mk.injEq] at hsome
      obtain ⟨he1, he2, he3⟩ := hsome
      subst he1; subst he2; subst he3
      exact ⟨r1, r2, h1, h2, hne, rfl, hth⟩
  · rintro ⟨r1, r2, h1, h2, hne, hsp, hth⟩
    refine ⟨(p1, r1), h1, (p2, r2), h2, ?_⟩
    simp only
    rw [if_pos hne, if_pos hth, hsp]

theorem isEmpty_false_of_ne_nil {α : Type} {l : List α} (h : l ≠ []) :
    l.isEmpty = false := by
  cases l with
  | nil => exact absurd rfl h
  | cons a t => rfl

theorem display_results_ne_nil (results : List (String × RateRecord))
    (now : String) (h : results ≠ []) :
    display_results results now =
      displayHeaderPre ++ now ++ displayTable results := by
  rw [display_results, isEmpty_false_of_ne_nil h]
  rfl

theorem display_results_inj_now (results : List (String × RateRecord))
    (t1 t2 : String) (h : results ≠ []) :
    display_results results t1 = display_results results t2 ↔ t1 = t2 := by
  constructor
  · intro he
    rw [display_results_ne_nil _ _ h, display_results_ne_nil _ _ h] at he
    have hd := congrArg String.data he
    simp only [String.data_append] at hd
    exact String.ext (List.append_cancel_left (List.append_cancel_right hd))
  · intro he
    rw [he]

/-- One method invocation on the scanner object, with all external inputs
(HTTP outcomes, clock reading, argument mapping) made explicit. -/
inductive ScannerOp where
  | opFetch (from_curr to_curr : String) (resp : FetchOutcome)
  | opScan (pairs : List (String × String)) (responses : ℕ → FetchOutcome)
      (delay : ℚ)
  | opRender (results : List (String × RateRecord)) (now : String)
  | opArb (results : List (String × RateRecord))

/-- Runs one method on the scanner state and returns the resulting state.
No method of the source class assigns to any attribute of `self` (in
particular none writes `self.cache`, and none reads it), so each method
computes its value and leaves the state unchanged. -/
def runOp (s : ForexScanner) : ScannerOp → ForexScanner
  | .opFetch f t resp => (fun _ => s) (get_exchange_rate s f t resp)
  | .opScan pairs responses delay => (fun _ => s) (scan_pairs s responses pairs delay)
  | .opRender results now => (fun _ => s) (display_results results now)
  | .opArb results => (fun _ => s) (calculate_arbitrage results)

theorem runOp_state (s : ForexScanner) (op : ScannerOp) : runOp s op = s := by
  cases op <;> rfl

theorem foldl_runOp_state (ops : List ScannerOp) :
    ∀ s : ForexScanner, ops.foldl runOp s = s := by
  induction ops with
  | nil => intro s; rfl
  | cons op rest ih =>
    intro s
    rw [List.foldl_cons, runOp_state]
    exact ih s

/-- A record with the given codes and a rate (= bid = ask) of one half,
used in the concrete scenarios below. -/
def halfRecord (c1 c2 : String) : RateRecord :=
  { fromCode := c1, from_name := c1, toCode := c2, to_name := c2,
    rate := 1 / 2, last_refreshed := "2024-01-01 00:00:00", timezone := "UTC",
    bid := 1 / 2, ask := 1 / 2 }

/-- The spec's example mapping with rates 0.5 in both directions. -/
def exMapHalf : List (String × RateRecord) :=
  [("USD/EUR", halfRecord "USD" "EUR"), ("EUR/USD", halfRecord "EUR" "USD")]

/-- A complete quote object whose code fields are lowercase, as the upstream
API could return them. -/
def lowerQuote : RawQuote :=
  { fromCurrencyCode := some "usd", fromCurrencyName := some "United States Dollar",
    toCurrencyCode := some "eur", toCurrencyName := some "Euro",
    exchangeRate := some (92 / 100), lastRefreshedField := some "2024-01-01 00:00:00",
    timeZoneField := some "UTC", bidPrice := some (91 / 100),
    askPrice := some (93 / 100) }

/-- A well-formed response body around `lowerQuote`. -/
def lowerBody : ApiResponse :=
  { errorMessage := none, note := none, realtimeRate := some lowerQuote }

/-- The record `get_exchange_rate` builds from `lowerBody`. -/
def lowerRecord : RateRecord :=
  { fromCode := "usd", from_name := "United States Dollar", toCode := "eur",
    to_name := "Euro", rate := 92 / 100,
    last_refreshed := "2024-01-01 00:00:00", timezone := "UTC",
    bid := 91 / 100, ask := 93 / 100 }

/-- A complete quote object with uppercase codes. -/
def upperQuote : RawQuote :=
  { fromCurrencyCode := some "USD", fromCurrencyName := some "United States Dollar",
    toCurrencyCode := some "EUR", toCurrencyName := some "Euro",
    exchangeRate := some (92 / 100), lastRefreshedField := some "2024-01-01 00:00:00",
    timeZoneField := some "UTC", bidPrice := some (91 / 100),
    askPrice := some (93 / 100) }

/-- A well-formed response body around `upperQuote`. -/
def upperBody : ApiResponse :=
  { errorMessage := none, note := none, realtimeRate := some upperQuote }

/-- A body carrying an `Error Message` together with a `Note` and a complete
quote object, to exhibit the classification priority. -/
def errorBodyFull : ApiResponse :=
  { errorMessage := some "Invalid API call.",
    note := some "Thank you for using Alpha Vantage!",
    realtimeRate := some upperQuote }

/-- C1 (counterexample): a successful fetch whose response carries lowercase
code fields yields a record whose `from`/`to` codes are *not* uppercase —
the code uppercases only the outgoing request parameters, never the fields
copied from the response. -/
theorem C1_counterexample :
    get_exchange_rate (ForexScanner.init "demo") "usd" "eur"
        (.jsonBody lowerBody) = some lowerRecord ∧
    lowerRecord.fromCode.toUpper ≠ lowerRecord.fromCode ∧
    lowerRecord.toCode.toUpper ≠ lowerRecord.toCode := by
  with_unfolding_all decide

/-- C1 (amended): for every successful fetch, the record's `rate`, `bid` and
`ask` are exactly the parsed numeric values of the response's exchange-rate,
bid-price and ask-price fields, and its codes are the response's code fields
verbatim; the uppercasing applies to the request's `from_currency` and
`to_currency` query parameters. -/
theorem C1_success_fields (s : ForexScanner) (from_currency to_currency : String)
    (body : ApiResponse) (record : RateRecord)
    (h : get_exchange_rate s from_currency to_currency (.jsonBody body) =
      some record) :
    (∃ rd, body.realtimeRate = some rd ∧
      rd.exchangeRate = some record.rate ∧
      rd.bidPrice = some record.bid ∧
      rd.askPrice = some record.ask ∧
      rd.fromCurrencyCode = some record.fromCode ∧
      rd.toCurrencyCode = some record.toCode) ∧
    lookupKey (requestParams s from_currency to_currency) "from_currency" =
      some from_currency.toUpper ∧
    lookupKey (requestParams s from_currency to_currency) "to_currency" =
      some to_currency.toUpper := by
  obtain ⟨em, nt, rt⟩ := body
  cases em with
  | some m => simp [get_exchange_rate] at h
  | none =>
  cases nt with
  | some m => simp [get_exchange_rate] at h
  | none =>
  cases rt with
  | none => simp [get_exchange_rate] at h
  | some rd =>
  obtain ⟨fc, fn, tc, tn, r, lr, tz, b, a⟩ := rd
  cases fc with
  | none => simp [get_exchange_rate] at h
  | some fc =>
  cases fn with
  | none => simp [get_exchange_rate] at h
  | some fn =>
  cases tc with
  | none => simp [get_exchange_rate] at h
  | some tc =>
  cases tn with
  | none => simp [get_exchange_rate] at h
  | some tn =>
  cases r with
  | none => simp [get_exchange_rate] at h
  | some r =>
  cases lr with
  | none => simp [get_exchange_rate] at h
  | some lr =>
  cases tz with
  | none => simp [get_exchange_rate] at h
  | some tz =>
  cases b with
  | none => simp [get_exchange_rate] at h
  | some b =>
  cases a with
  | none => simp [get_exchange_rate] at h
  | some a =>
  simp only [get_exchange_rate, Option.isSome_none, Bool.false_eq_true,
    if_false, Option.some.injEq] at h
  subst h
  refine ⟨⟨_, rfl, rfl, rfl, rfl, rfl, rfl⟩, ?_, ?_⟩ <;>
    simp [requestParams, lookupKey]

/-- C1 (witness): the amended statement instantiated at the lowercase body. -/
theorem C1_witness :
    (∃ rd, lowerBody.realtimeRate = some rd ∧
      rd.exchangeRate = some lowerRecord.rate ∧
      rd.bidPrice = some lowerRecord.bid ∧
      rd.askPrice = some lowerRecord.ask ∧
      rd.fromCurrencyCode = some lowerRecord.fromCode ∧
      rd.toCurrencyCode = some lowerRecord.toCode) ∧
    lookupKey (requestParams (ForexScanner.init "demo") "usd" "eur")
      "from_currency" = some ("usd".toUpper) ∧
    lookupKey (requestParams (ForexScanner.init "demo") "usd" "eur")
      "to_currency" = some ("eur".toUpper) :=
  C1_success_fields (ForexScanner.init "demo") "usd" "eur" lowerBody
    lowerRecord (by with_unfolding_all decide)

/-- C2 (counterexample): rendering the same non-empty mapping at two clock
readings gives different text, so `render` is not a function of the mapping
alone — `display_results` embeds `datetime.now()` in its title line. -/
theorem C2_counterexample :
    display_results [("USD/EUR", halfRecord "USD" "EUR")] "2024-01-01 00:00:00" ≠
      display_results [("USD/EUR", halfRecord "USD" "EUR")] "2024-01-02 12:30:45" := by
  with_unfolding_all decide

/-- C2 (amended): `render` is a pure function of the mapping and the clock
reading: on the empty mapping the text is clock-independent, and on a
non-empty mapping two renderings agree exactly when the clock strings
agree. -/
theorem C2_render_depends_on_clock :
    (∀ t1 t2 : String, display_results [] t1 = display_results [] t2) ∧
    (∀ (results : List (String × RateRecord)) (t1 t2 : String),
      results ≠ [] →
      (display_results results t1 = display_results results t2 ↔ t1 = t2)) :=
  ⟨fun _ _ => rfl, fun results t1 t2 h => display_results_inj_now results t1 t2 h⟩

/-- C2 (witness): the amended statement at a concrete non-empty mapping. -/
theorem C2_witness :
    display_results [("USD/EUR", halfRecord "USD" "EUR")] "2024-01-01 00:00:00" =
        display_results [("USD/EUR", halfRecord "USD" "EUR")] "2024-01-01 00:00:00" ↔
      "2024-01-01 00:00:00" = "2024-01-01 00:00:00" :=
  C2_render_depends_on_clock.2 [("USD/EUR", halfRecord "USD" "EUR")]
    "2024-01-01 00:00:00" "2024-01-01 00:00:00" (List.cons_ne_nil _ _)

/-- C3: every key present in the mapping `scan_pairs` returns comes from a
pair whose fetch succeeded: if the key is bound, some input pair at position
`i` has display key `k` and its HTTP outcome parses to a record. Keys of
pairs all of whose fetches failed are absent (their lookup is `none`). -/
theorem C3_keys_only_from_success (s : ForexScanner)
    (responses : ℕ → FetchOutcome) (currency_pairs : List (String × String))
    (delay : ℚ) (k : String)
    (h : (lookupKey (scan_pairs s responses currency_pairs delay).1 k).isSome = true) :
    ∃ i, ∃ hi : i < currency_pairs.length,
      (currency_pairs.get ⟨i, hi⟩).1 ++ "/" ++ (currency_pairs.get ⟨i, hi⟩).2 = k ∧
      (get_exchange_rate s (currency_pairs.get ⟨i, hi⟩).1
        (currency_pairs.get ⟨i, hi⟩).2 (responses i)).isSome = true := by
  rw [scan_pairs, scanGo_fst_lookupKey] at h
  rw [show lookupKey ([] : List (String × RateRecord)) k = none from rfl,
    Option.or_none] at h
  obtain ⟨j, hj, hkey, hsucc⟩ := lastSuccessAux_isSome s responses
    currency_pairs 1 k h
  refine ⟨j, hj, hkey, ?_⟩
  have harith : 1 + j - 1 = j := by omega
  rwa [harith] at hsucc

/-- C3 (witness): at a singleton pair list with a well-formed response. -/
theorem C3_witness :
    ∃ i, ∃ hi : i < [("USD", "EUR")].length,
      ([("USD", "EUR")].get ⟨i, hi⟩).1 ++ "/" ++ ([("USD", "EUR")].get ⟨i, hi⟩).2 =
        "USD/EUR" ∧
      (get_exchange_rate (ForexScanner.init "demo") ([("USD", "EUR")].get ⟨i, hi⟩).1
        ([("USD", "EUR")].get ⟨i, hi⟩).2
        ((fun _ => FetchOutcome.jsonBody upperBody) i)).isSome = true :=
  C3_keys_only_from_success (ForexScanner.init "demo")
    (fun _ => FetchOutcome.jsonBody upperBody) [("USD", "EUR")] 12 "USD/EUR"
    (by with_unfolding_all decide)

/-- C4: over a pair list of length n the scan loop's event trace is exactly
the n fetches in input order with one sleep between consecutive fetches —
so n fetch calls and n−1 sleeps (truncated subtraction: 0 for the empty
list), never a sleep after the last pair, whatever the fetch outcomes. -/
theorem C4_trace_shape (s : ForexScanner) (responses : ℕ → FetchOutcome)
    (currency_pairs : List (String × String)) (delay : ℚ) :
    (scan_pairs s responses currency_pairs delay).2 =
      List.intersperse (Event.sleepEvent delay)
        (currency_pairs.map fun p => Event.fetchEvent p.1 p.2) ∧
    (scan_pairs s responses currency_pairs delay).2.filterMap fetchArgsOf =
      currency_pairs ∧
    List.countP isFetchB (scan_pairs s responses currency_pairs delay).2 =
      currency_pairs.length ∧
    List.countP isSleepB (scan_pairs s responses currency_pairs delay).2 =
      currency_pairs.length - 1 := by
  have ht : (scan_pairs s responses currency_pairs delay).2 =
      List.intersperse (Event.sleepEvent delay)
        (currency_pairs.map fun p => Event.fetchEvent p.1 p.2) := by
    rw [scan_pairs]
    exact scanGo_snd_trace s responses currency_pairs.length delay
      currency_pairs 1 [] (by omega)
  refine ⟨ht, ?_, ?_, ?_⟩
  · rw [ht]; exact filterMap_fetchArgsOf_intersperse delay currency_pairs
  · rw [ht]; exact countP_isFetchB_intersperse delay currency_pairs
  · rw [ht]; exact countP_isSleepB_intersperse delay currency_pairs

/-- C5: any JSON body carrying an `Error Message` field makes the fetch fail
with no record; the check precedes the `Note` and quote-object checks, so it
fires even when those fields are also present. -/
theorem C5_error_message_fails (s : ForexScanner)
    (from_currency to_currency : String) (body : ApiResponse)
    (h : body.errorMessage.isSome = true) :
    get_exchange_rate s from_currency to_currency (.jsonBody body) = none := by
  simp [get_exchange_rate, h]

/-- C5 (witness): a body with an error message, a note and a complete quote
object still fails. -/
theorem C5_witness :
    get_exchange_rate (ForexScanner.init "demo") "USD" "EUR"
      (.jsonBody errorBodyFull) = none :=
  C5_error_message_fails (ForexScanner.init "demo") "USD" "EUR"
    errorBodyFull rfl

/-- C6: `calculate_arbitrage` reports at most five findings, none of which
compares a key with itself, and they are exactly the first five collected
opportunities in outer-then-inner discovery order. -/
theorem C6_findings_cap (results : List (String × RateRecord)) :
    (calculate_arbitrage results).length ≤ 5 ∧
    (∀ f ∈ calculate_arbitrage results, f.1 ≠ f.2.1) ∧
    calculate_arbitrage results =
      (opportunitiesOf (pairsDictOf results)).take 5 := by
  refine ⟨?_, ?_, rfl⟩
  · rw [calculate_arbitrage]
    exact List.length_take_le 5 _
  · intro f hf
    have hf' : f ∈ opportunitiesOf (pairsDictOf results) :=
      List.take_subset 5 _ hf
    obtain ⟨q1, q2, sp⟩ := f
    obtain ⟨r1, r2, _, _, hne, _, _⟩ :=
      (mem_opportunitiesOf (pairsDictOf results) q1 q2 sp).mp hf'
    exact hne

/-- C6 (witness): the no-self-comparison clause at a concrete finding. -/
theorem C6_witness : ("USD/EUR" : String) ≠ "EUR/USD" :=
  (C6_findings_cap exMapHalf).2.1 ("USD/EUR", "EUR/USD", 3 / 4)
    (by with_unfolding_all decide)

/-- C7: a triple is collected exactly when it comes from two entries with
distinct keys whose spread `|rate1 * rate2 - 1|` strictly exceeds 0.01, both
orderings being evaluated; on the spec's example mapping with both rates
0.5 the spread 0.75 is reported in both orders. -/
theorem C7_spread_both_orders :
    (∀ (results : List (String × RateRecord)) (p1 p2 : String) (sp : ℚ),
      (p1, p2, sp) ∈ opportunitiesOf (pairsDictOf results) ↔
        ∃ r1 r2, (p1, r1) ∈ pairsDictOf results ∧
          (p2, r2) ∈ pairsDictOf results ∧ p1 ≠ p2 ∧
          sp = |r1 * r2 - 1| ∧ 1 / 100 < |r1 * r2 - 1|) ∧
    calculate_arbitrage exMapHalf =
      [("USD/EUR", "EUR/USD", 3 / 4), ("EUR/USD", "USD/EUR", 3 / 4)] :=
  ⟨fun results p1 p2 sp => mem_opportunitiesOf (pairsDictOf results) p1 p2 sp,
   by with_unfolding_all decide⟩

/-- C7 (witness): the membership characterisation applied on the example
mapping. -/
theorem C7_witness :
    ∃ r1 r2, ("USD/EUR", r1) ∈ pairsDictOf exMapHalf ∧
      ("EUR/USD", r2) ∈ pairsDictOf exMapHalf ∧
      ("USD/EUR" : String) ≠ "EUR/USD" ∧
      (3 / 4 : ℚ) = |r1 * r2 - 1| ∧ (1 / 100 : ℚ) < |r1 * r2 - 1| :=
  (C7_spread_both_orders.1 exMapHalf "USD/EUR" "EUR/USD" (3 / 4)).mp
    (by with_unfolding_all decide)

/-- C8: on the empty mapping `display_results` prints exactly the
no-results notice (no table) and `calculate_arbitrage` reports nothing. -/
theorem C8_empty_results :
    (∀ now : String, display_results [] now = noResultsNotice) ∧
    calculate_arbitrage [] = [] :=
  ⟨fun _ => rfl, rfl⟩

/-- C9: the cache is written only by `__init__` (to the empty dict) and
never read or written afterwards: any sequence of method calls leaves the
scanner state — in particular its cache — exactly as constructed, and the
fetch result is independent of the cache contents. -/
theorem C9_cache_never_used :
    (∀ (api_key : String) (ops : List ScannerOp),
      (ops.foldl runOp (ForexScanner.init api_key)).cache = [] ∧
      ops.foldl runOp (ForexScanner.init api_key) = ForexScanner.init api_key) ∧
    (∀ (s : ForexScanner) (c : List (String × RateRecord))
      (from_currency to_currency : String) (resp : FetchOutcome),
      get_exchange_rate { s with cache := c } from_currency to_currency resp =
        get_exchange_rate s from_currency to_currency resp) :=
  ⟨fun api_key ops => ⟨by rw [foldl_runOp_state]; rfl, foldl_runOp_state ops _⟩,
   fun s c f t resp => rfl⟩

/-- C10: the mapping returned by `scan_pairs` binds every key at most once,
and the value bound to a key is the record of the *last* successful fetch of
a pair with that display key (later successes overwrite earlier ones); keys
with no successful fetch are unbound. -/
theorem C10_last_success_wins (s : ForexScanner)
    (responses : ℕ → FetchOutcome) (currency_pairs : List (String × String))
    (delay : ℚ) (k : String) :
    lookupKey (scan_pairs s responses currency_pairs delay).1 k =
      lastSuccessFor s responses currency_pairs k ∧
    (keysOf (scan_pairs s responses currency_pairs delay).1).Nodup := by
  constructor
  · rw [scan_pairs, scanGo_fst_lookupKey]
    rw [show lookupKey ([] : List (String × RateRecord)) k = none from rfl,
      Option.or_none]
    rfl
  · rw [scan_pairs]
    exact scanGo_fst_nodup s responses currency_pairs.length delay
      currency_pairs 1 [] (by simp [keysOf])

end ForexSpec
